import Mathlib

/-!
Shallow embedding of `dbt_checkpoint/check_column_name_contract.py`: the
`check_column_name_contract` hook, which checks a bidirectional contract between
column names and column types over a dbt catalog.

Conventions of the embedding:
* A catalog is an association list from model identifier to `ModelNode`
  (Python dicts preserve insertion order, so a list is the faithful order-aware model).
* A `ModelNode` whose `"columns"` key is missing is modelled with `columns = none`;
  a present (possibly empty) columns mapping is `some` of the list of its values.
* The caller-supplied regex is modelled as a `RegularExpression Char` (Mathlib);
  `re.match(pattern, s, re.IGNORECASE)` is modelled by `re_match_icase`, which
  case-folds both pattern and subject and accepts when some prefix of the subject
  is in the pattern's language (Python `re.match` anchors at the start only).
* `print` diagnostics are modelled as a list of structured `Violation` values,
  one per printed line; the parts of the printed message that vary per column
  (its name, and for the reverse check its type) are recorded, while the parts
  constant across one invocation (`pattern`, `dtype_upper`) are omitted.
* The `AttributeError` raised by `.get("columns", []).values()` when the
  `"columns"` key is missing (a Python `list` has no `.values()`) is modelled as
  `Except.error ()`.
-/

/-- Column metadata as read from the catalog: `{name: string, type: string}`.
The field `type` is written `ty` because `type` is a keyword; it carries the
value of the `"type"` key. -/
structure Column where
  name : String
  ty : String
deriving DecidableEq, Repr

/-- A catalog model entry. `columns = none` models a node with no `"columns"` key;
`columns = some cs` models a present columns mapping whose `.values()` is `cs`. -/
structure ModelNode where
  columns : Option (List Column)
deriving DecidableEq, Repr

/-- One printed diagnostic line. `TypeWithoutPattern` is the forward-check message
("column is of type … and does not match regex pattern …"); `PatternWithoutType`
is the reverse-check message ("name matches regex pattern … and is of type …
instead of …"). -/
inductive Violation where
  | TypeWithoutPattern (col_name : String)
  | PatternWithoutType (col_name : String) (col_type : String)
deriving DecidableEq, Repr

/-- The structured result `{"status_code": status_code}` together with the
diagnostic side channel (the printed lines, in print order). -/
structure CheckResult where
  status_code : Nat
  diagnostics : List Violation
deriving DecidableEq, Repr

/-- Does the character list contain `", "` (comma directly followed by space)
as a contiguous substring?  This is the negative-lookahead condition
`(?!.*?, )` of the splitting regex, tested on the rest of the string. -/
def containsCommaSpace : List Char → Bool
  | [] => false
  | [_] => false
  | c :: d :: rest =>
    if c = ',' ∧ d = ' ' then true else containsCommaSpace (d :: rest)

/-- Left-to-right scan implementing Python `re.split(r', | (?!.*?, )|,|\|', s)`:
at each position the alternatives are tried in order — `", "`, a space whose
remaining suffix does not contain `", "`, `","`, `"|"` — and a matching
alternative ends the current token; otherwise the character joins the token. -/
def splitTokensAux : List Char → List Char → List String
  | cur, [] => [String.mk cur]
  | cur, ',' :: ' ' :: rest => String.mk cur :: splitTokensAux [] rest
  | cur, ',' :: rest => String.mk cur :: splitTokensAux [] rest
  | cur, '|' :: rest => String.mk cur :: splitTokensAux [] rest
  | cur, ' ' :: rest =>
    if containsCommaSpace rest then splitTokensAux (cur ++ [' ']) rest
    else String.mk cur :: splitTokensAux [] rest
  | cur, c :: rest => splitTokensAux (cur ++ [c]) rest

/-- `re.split(r', | (?!.*?, )|,|\|', s)`. -/
def splitTokens (s : String) : List String :=
  splitTokensAux [] s.data

/-- Python `str.lower()`: lowercase every character (`Char.toLower` is the
ASCII case folding). -/
def strLower (s : String) : String :=
  String.mk (s.data.map Char.toLower)

/-- The normalization applied to both the `dtype` and the `col_name_ignore`
parameter strings: split on the delimiters and lowercase every token
(`[t.lower() for t in re.split(r', | (?!.*?, )|,|\|', s)]`). -/
def parse_list_param (s : String) : List String :=
  (splitTokens s).map strLower

/-- `re.match(pattern, s, re.IGNORECASE) is not None`: case-insensitive match
anchored at the start of `s` — it succeeds when the pattern's language contains
some prefix of `s` (a match need not cover the whole string).  Case folding is
applied to both the pattern's characters and the subject's. -/
def re_match_icase (pattern : RegularExpression Char) (s : String) : Bool :=
  let p := RegularExpression.map Char.toLower pattern
  let cs := s.data.map Char.toLower
  (List.range (cs.length + 1)).any (fun n => p.rmatch (cs.take n))

/-- Modelled from the spec: `get_filenames` lives in `dbt_checkpoint/utils.py`,
which is not among the sources.  Per the spec it is "a file-path-to-model-identifier
resolver that, given a list of filesystem paths and an extension filter (`.sql`),
yields the set of model identifiers to inspect", deriving identifiers "by filename
stem matching `.sql` files".  Helper: the filename stem of a path (basename with
its final extension removed). -/
def stemOf (p : String) : String :=
  let b := (p.data.reverse.takeWhile (fun c => c ≠ '/')).reverse
  if '.' ∈ b then String.mk ((b.reverse.dropWhile (fun c => c ≠ '.')).drop 1).reverse
  else String.mk b

/-- Modelled from the spec: `get_filenames(paths, [".sql"])` from
`dbt_checkpoint/utils.py` (not among the sources); the model identifiers derivable
from the caller-supplied file paths, "by filename stem matching `.sql` files". -/
def get_filenames (paths : List String) : List String :=
  (paths.filter (fun p => ".sql".data.isSuffixOf p.data)).map stemOf

/-- Modelled from the spec: `get_models(catalog, filenames)` from
`dbt_checkpoint/utils.py` (not among the sources); restricts the catalog to
models whose identifiers are in the resolved set, i.e. "the intersection of
(model identifiers present in the catalog) and (model identifiers derivable from
the caller-supplied file paths)", in catalog iteration order. -/
def get_models (catalog : List (String × ModelNode)) (filenames : List String) :
    List (String × ModelNode) :=
  catalog.filter (fun m => decide (m.1 ∈ filenames))

/-- The body of the inner `for col in …` loop, threading the mutable state
`(status_code, printed diagnostics)`:

```
col_name = col.get("name").lower()
col_type = col.get("type").lower()
if col_type in dtype:
    if col_name not in col_name_ignore and re.match(pattern, col_name, re.IGNORECASE) is None and not pattern_flg:
        status_code = 1
        print(<TypeWithoutPattern message>)
elif col_name not in col_name_ignore and re.match(pattern, col_name, re.IGNORECASE):
    status_code = 1
    print(<PatternWithoutType message>)
```
-/
def columnCheck (dtype_list col_name_ignore : List String)
    (pattern : RegularExpression Char) (pattern_flg : Bool)
    (acc : Nat × List Violation) (col : Column) : Nat × List Violation :=
  let col_name := strLower col.name
  let col_type := strLower col.ty
  if col_type ∈ dtype_list then
    if col_name ∉ col_name_ignore ∧ re_match_icase pattern col_name = false ∧
        pattern_flg = false then
      (1, acc.2 ++ [Violation.TypeWithoutPattern col_name])
    else acc
  else if col_name ∉ col_name_ignore ∧ re_match_icase pattern col_name = true then
    (1, acc.2 ++ [Violation.PatternWithoutType col_name col_type])
  else acc

/-- The outer `for model in models` loop.  `model.node.get("columns", []).values()`
raises `AttributeError` when the `"columns"` key is absent (the `[]` fallback is a
list and has no `.values()`), which aborts the whole call: modelled by
`Except.error ()`.  Otherwise the inner loop folds `columnCheck` over the model's
columns. -/
def runModels (dtype_list col_name_ignore : List String)
    (pattern : RegularExpression Char) (pattern_flg : Bool) :
    List (String × ModelNode) → Nat × List Violation →
    Except Unit (Nat × List Violation)
  | [], acc => Except.ok acc
  | m :: ms, acc =>
    match m.2.columns with
    | none => Except.error ()
    | some cols =>
      runModels dtype_list col_name_ignore pattern pattern_flg ms
        (cols.foldl (columnCheck dtype_list col_name_ignore pattern pattern_flg) acc)

/-- `check_column_name_contract(paths, pattern, dtype, catalog, pattern_flg,
col_name_ignore)`: resolve the in-scope models, normalize the two list
parameters, sweep every column of every in-scope model, and return
`{"status_code": status_code}` together with the printed diagnostics —
or the propagated `AttributeError` for a model entry with no `"columns"` key. -/
def check_column_name_contract (paths : List String)
    (pattern : RegularExpression Char) (dtype : String)
    (catalog : List (String × ModelNode)) (pattern_flg : Bool)
    (col_name_ignore : String) : Except Unit CheckResult :=
  let filenames := get_filenames paths
  let models := get_models catalog filenames
  let dtype_list := parse_list_param dtype
  let ignore_list := parse_list_param col_name_ignore
  match runModels dtype_list ignore_list pattern pattern_flg models (0, []) with
  | Except.error e => Except.error e
  | Except.ok r => Except.ok ⟨r.1, r.2⟩

/-- The violations one column contributes on its own: the inner loop body run
from a clean accumulator, keeping only the printed lines.  This is what one
column appends to the diagnostic stream (the empty list for a contract-valid or
ignored column, a single line for a violating one). -/
def colViolations (dtype_list col_name_ignore : List String)
    (pattern : RegularExpression Char) (pattern_flg : Bool)
    (col : Column) : List Violation :=
  (columnCheck dtype_list col_name_ignore pattern pattern_flg (0, []) col).2

/-- All violations of a list of models, in print order: the per-column
violations of every column of every model, concatenated. -/
def modelsViolations (dtype_list col_name_ignore : List String)
    (pattern : RegularExpression Char) (pattern_flg : Bool)
    (ms : List (String × ModelNode)) : List Violation :=
  (ms.map (fun m => ((m.2.columns.getD []).map
    (colViolations dtype_list col_name_ignore pattern pattern_flg)).flatten)).flatten

/-! ### Concrete fixtures (used to instantiate the theorems below) -/

/-- The regex `dt_` as a regular expression (Python `re.match` anchors at the
start, so the pattern `^dt_` and `dt_` behave identically under `re.match`). -/
def patDT : RegularExpression Char :=
  RegularExpression.comp (RegularExpression.char 'd')
    (RegularExpression.comp (RegularExpression.char 't') (RegularExpression.char '_'))

/-- Two models, one forward-violating column each. -/
def catTwoModels : List (String × ModelNode) :=
  [("m1", ⟨some [⟨"created_at", "date"⟩]⟩), ("m2", ⟨some [⟨"updated_at", "date"⟩]⟩)]

/-- One model whose single column has its name on the ignore list, a type outside
the dtype list, and a name matching the pattern. -/
def catIgnoredReverse : List (String × ModelNode) :=
  [("m1", ⟨some [⟨"dt_ignored", "boolean"⟩]⟩)]

/-- One model whose columns all carry the type `date`, one of them violating the
naming pattern. -/
def catAllDates : List (String × ModelNode) :=
  [("m1", ⟨some [⟨"dt_ok", "date"⟩, ⟨"created_at", "date"⟩]⟩)]

/-- One model entry with no `"columns"` key. -/
def catNoColumnsKey : List (String × ModelNode) :=
  [("m1", ⟨none⟩)]

/-! ### Structural lemmas about the sweep -/

/-- One step of the inner loop: the accumulator picks up exactly the column's own
violations, and the status becomes 1 precisely when the column violates (otherwise
it is left as it was). -/
theorem columnCheck_eq (dl ig : List String) (p : RegularExpression Char)
    (flg : Bool) (acc : Nat × List Violation) (col : Column) :
    columnCheck dl ig p flg acc col =
      ((if colViolations dl ig p flg col = [] then acc.1 else 1),
        acc.2 ++ colViolations dl ig p flg col) := by
  unfold colViolations columnCheck
  by_cases h1 : strLower col.ty ∈ dl
  · by_cases h2 : strLower col.name ∉ ig ∧
        re_match_icase p (strLower col.name) = false ∧ flg = false
    · simp [h1, h2]
    · simp [h1, h2]
  · by_cases h3 : strLower col.name ∉ ig ∧ re_match_icase p (strLower col.name) = true
    · simp [h1, h3]
    · simp [h1, h3]

/-- Unfolding of `modelsViolations` at a cons cell. -/
theorem modelsViolations_cons (dl ig : List String) (p : RegularExpression Char)
    (flg : Bool) (m : String × ModelNode) (ms : List (String × ModelNode)) :
    modelsViolations dl ig p flg (m :: ms) =
      ((m.2.columns.getD []).map (colViolations dl ig p flg)).flatten ++
        modelsViolations dl ig p flg ms := by
  simp [modelsViolations]

/-- The inner loop over one model's columns: the diagnostics of all its columns
are appended in order, and the status is 1 iff the incoming status was 1 or some
column violates. -/
theorem foldl_columnCheck (dl ig : List String) (p : RegularExpression Char)
    (flg : Bool) (cols : List Column) (acc : Nat × List Violation) :
    cols.foldl (columnCheck dl ig p flg) acc =
      ((if (cols.map (colViolations dl ig p flg)).flatten = [] then acc.1 else 1),
        acc.2 ++ (cols.map (colViolations dl ig p flg)).flatten) := by
  induction cols generalizing acc with
  | nil => simp
  | cons c cs ih =>
    rw [List.foldl_cons, columnCheck_eq, ih]
    by_cases hv : colViolations dl ig p flg c = [] <;>
      by_cases hr : (cs.map (colViolations dl ig p flg)).flatten = [] <;>
        simp [hv, hr, List.append_eq_nil]

/-- The outer loop, when every model entry has a `"columns"` key: no error, the
diagnostics of all models accumulate in order, and the status is 1 iff it was
already 1 or some column of some model violates. -/
theorem runModels_ok (dl ig : List String) (p : RegularExpression Char)
    (flg : Bool) (ms : List (String × ModelNode)) (acc : Nat × List Violation)
    (h : ∀ m ∈ ms, m.2.columns ≠ none) :
    runModels dl ig p flg ms acc =
      Except.ok ((if modelsViolations dl ig p flg ms = [] then acc.1 else 1),
        acc.2 ++ modelsViolations dl ig p flg ms) := by
  induction ms generalizing acc with
  | nil => simp [runModels, modelsViolations]
  | cons m ms ih =>
    have htail : ∀ x ∈ ms, x.2.columns ≠ none :=
      fun x hx => h x (List.mem_cons_of_mem m hx)
    obtain ⟨cols, hc⟩ : ∃ cols, m.2.columns = some cols := by
      cases hm : m.2.columns with
      | none => exact absurd hm (h m (List.mem_cons_self m ms))
      | some cols => exact ⟨cols, rfl⟩
    simp only [runModels, hc]
    rw [foldl_columnCheck, ih _ htail, modelsViolations_cons]
    simp only [hc, Option.getD_some]
    by_cases hv : (cols.map (colViolations dl ig p flg)).flatten = [] <;>
      by_cases hr : modelsViolations dl ig p flg ms = [] <;>
        simp [hv, hr, List.append_eq_nil, List.append_assoc]

/-- The outer loop aborts with the propagated `AttributeError` as soon as some
model entry in the list has no `"columns"` key. -/
theorem runModels_error (dl ig : List String) (p : RegularExpression Char)
    (flg : Bool) (ms : List (String × ModelNode)) (acc : Nat × List Violation)
    (h : ∃ m ∈ ms, m.2.columns = none) :
    runModels dl ig p flg ms acc = Except.error () := by
  induction ms generalizing acc with
  | nil => simp at h
  | cons m ms ih =>
    obtain ⟨m', hm', hnone⟩ := h
    rcases List.mem_cons.mp hm' with rfl | hmem
    · simp [runModels, hnone]
    · cases hc : m.2.columns with
      | none => simp [runModels, hc]
      | some cols =>
        simp only [runModels, hc]
        exact ih _ ⟨m', hmem, hnone⟩

/-- `check_column_name_contract` on a well-formed catalog: it returns `ok`, its
diagnostics are exactly the in-scope per-column violations in order, and its
status code is 1 when any exist and 0 otherwise. -/
theorem check_eq_ok (paths : List String) (pattern : RegularExpression Char)
    (dtype : String) (catalog : List (String × ModelNode)) (flg : Bool)
    (ignore : String)
    (h : ∀ m ∈ get_models catalog (get_filenames paths), m.2.columns ≠ none) :
    check_column_name_contract paths pattern dtype catalog flg ignore =
      Except.ok ⟨(if modelsViolations (parse_list_param dtype)
          (parse_list_param ignore) pattern flg
          (get_models catalog (get_filenames paths)) = [] then 0 else 1),
        modelsViolations (parse_list_param dtype) (parse_list_param ignore)
          pattern flg (get_models catalog (get_filenames paths))⟩ := by
  simp only [check_column_name_contract]
  rw [runModels_ok _ _ _ _ _ _ h]
  simp

/-- `check_column_name_contract` propagates the `AttributeError` whenever some
in-scope model entry has no `"columns"` key. -/
theorem check_eq_error (paths : List String) (pattern : RegularExpression Char)
    (dtype : String) (catalog : List (String × ModelNode)) (flg : Bool)
    (ignore : String)
    (h : ∃ m ∈ get_models catalog (get_filenames paths), m.2.columns = none) :
    check_column_name_contract paths pattern dtype catalog flg ignore =
      Except.error () := by
  simp only [check_column_name_contract]
  rw [runModels_error _ _ _ _ _ _ h]

/-- A status of the shape the sweep produces equals 1 exactly when the
diagnostic list is non-empty. -/
theorem ite_status_eq_one (l : List Violation) :
    ((if l = [] then (0 : Nat) else 1) = 1) ↔ l ≠ [] := by
  by_cases hl : l = [] <;> simp [hl]

/-- No violations across a model list means no violations at any column of any
of its models. -/
theorem modelsViolations_eq_nil_iff (dl ig : List String)
    (p : RegularExpression Char) (flg : Bool) (ms : List (String × ModelNode)) :
    modelsViolations dl ig p flg ms = [] ↔
      ∀ m ∈ ms, ∀ col ∈ m.2.columns.getD [],
        colViolations dl ig p flg col = [] := by
  rw [modelsViolations, List.flatten_eq_nil_iff]
  constructor
  · intro h m hm col hcol
    have hmm := h _ (List.mem_map_of_mem _ hm)
    rw [List.flatten_eq_nil_iff] at hmm
    exact hmm _ (List.mem_map_of_mem _ hcol)
  · intro h x hx
    obtain ⟨m, hm, rfl⟩ := List.mem_map.mp hx
    rw [List.flatten_eq_nil_iff]
    intro y hy
    obtain ⟨col, hcol, rfl⟩ := List.mem_map.mp hy
    exact h m hm col hcol

/-- For a column whose type is in the dtype list and with the flag off, the
column violates exactly when its name escapes the ignore list and fails to
match the pattern. -/
theorem colViolations_forward_ne_nil (dl ig : List String)
    (p : RegularExpression Char) (col : Column)
    (hty : strLower col.ty ∈ dl) :
    colViolations dl ig p false col ≠ [] ↔
      (strLower col.name ∉ ig ∧ re_match_icase p (strLower col.name) = false) := by
  by_cases hc : strLower col.name ∉ ig ∧ re_match_icase p (strLower col.name) = false
  · simp [colViolations, columnCheck, hty, hc]
  · simp only [not_and_or, not_not] at hc
    rcases hc with hig | hre
    · simp [colViolations, columnCheck, hty, hig]
    · have hre' : re_match_icase p (strLower col.name) = true := by
        cases h' : re_match_icase p (strLower col.name)
        · exact absurd h' hre
        · rfl
      simp [colViolations, columnCheck, hty, hre']

/-! ### Claim theorems -/

/-- Claim C6: the parameter normalizer splits on comma, comma-space, pipe, and
the legacy space convention (a space splits only when no `", "` occurs later in
the string), lowercases every token, filters neither duplicates nor empty
tokens, and maps the empty input string to a list containing exactly one
empty-string token. -/
theorem parse_list_param_behaviour :
    parse_list_param "" = [""] ∧
    parse_list_param "a,b" = ["a", "b"] ∧
    parse_list_param "a, b" = ["a", "b"] ∧
    parse_list_param "a|b" = ["a", "b"] ∧
    parse_list_param "a b" = ["a", "b"] ∧
    parse_list_param "a b, c" = ["a b", "c"] ∧
    parse_list_param "Date,,DATE" = ["date", "", "date"] := by
  decide

/-- Claim C7: `re_match_icase` — the matcher used by both the forward and the
reverse check — accepts exactly when the case-folded pattern's language contains
some prefix of the case-folded name: the match is anchored at the start of the
name, need not cover the full name (the remainder `q` may be non-empty), and
only the case-folded forms of the pattern and of the name matter, so matching is
case-insensitive in both. -/
theorem re_match_icase_anchored_prefix (pattern : RegularExpression Char)
    (s : String) :
    re_match_icase pattern s = true ↔
      ∃ p q : List Char, s.data.map Char.toLower = p ++ q ∧
        p ∈ (RegularExpression.map Char.toLower pattern).matches' := by
  simp only [re_match_icase, List.any_eq_true, List.mem_range]
  constructor
  · rintro ⟨n, _hn, hm⟩
    exact ⟨(s.data.map Char.toLower).take n, (s.data.map Char.toLower).drop n,
      (List.take_append_drop _ _).symm,
      (RegularExpression.rmatch_iff_matches' _ _).mp hm⟩
  · rintro ⟨p, q, hpq, hp⟩
    refine ⟨p.length, ?_, ?_⟩
    · have hlen : p.length ≤ (s.data.map Char.toLower).length := by
        rw [hpq, List.length_append]
        exact Nat.le_add_right _ _
      omega
    · have ht : (s.data.map Char.toLower).take p.length = p := by
        rw [hpq]
        exact List.take_left _ _
      rw [ht]
      exact (RegularExpression.rmatch_iff_matches' _ _).mpr hp

/-- Claim C2: each column is judged by exactly one direction, selected by the
membership of its lowercased type in `dtype_list`: with membership the column
can only produce a forward (`TypeWithoutPattern`) diagnostic, without it only a
reverse (`PatternWithoutType`) one, and in every case a column produces at most
one diagnostic — never both. -/
theorem one_direction_per_column (dl ig : List String)
    (p : RegularExpression Char) (flg : Bool) (col : Column) :
    (strLower col.ty ∈ dl →
      ∀ n t, Violation.PatternWithoutType n t ∉ colViolations dl ig p flg col) ∧
    (strLower col.ty ∉ dl →
      ∀ n, Violation.TypeWithoutPattern n ∉ colViolations dl ig p flg col) ∧
    (colViolations dl ig p flg col).length ≤ 1 := by
  by_cases h1 : strLower col.ty ∈ dl
  · by_cases h2 : strLower col.name ∉ ig ∧
        re_match_icase p (strLower col.name) = false ∧ flg = false
    · simp [colViolations, columnCheck, h1, h2]
    · simp [colViolations, columnCheck, h1, h2]
  · by_cases h3 : strLower col.name ∉ ig ∧
        re_match_icase p (strLower col.name) = true
    · simp [colViolations, columnCheck, h1, h3]
    · simp [colViolations, columnCheck, h1, h3]

/-- Witness for C2 at a concrete column of each kind. -/
theorem one_direction_per_column_witness :
    (strLower (Column.mk "dt_flag" "boolean").ty ∉ (["date"] : List String)) ∧
    Violation.TypeWithoutPattern "dt_flag" ∉
      colViolations ["date"] [] patDT false ⟨"dt_flag", "boolean"⟩ :=
  ⟨by decide,
    (one_direction_per_column ["date"] [] patDT false ⟨"dt_flag", "boolean"⟩).2.1
      (by decide) "dt_flag"⟩

/-- Claim C3: `pattern_flg = true` suppresses only the forward direction: a
column whose lowercased type is in `dtype_list` then leaves the accumulator
(status and printed diagnostics) untouched whatever its name, while a column
whose type is not in `dtype_list` is treated exactly as with
`pattern_flg = false`. -/
theorem pattern_flg_suppresses_only_forward (dl ig : List String)
    (p : RegularExpression Char) (acc : Nat × List Violation) (col : Column) :
    (strLower col.ty ∈ dl → columnCheck dl ig p true acc col = acc) ∧
    (strLower col.ty ∉ dl →
      columnCheck dl ig p true acc col = columnCheck dl ig p false acc col) := by
  constructor
  · intro h1
    simp [columnCheck, h1]
  · intro h1
    simp [columnCheck, h1]

/-- Witness for C3: a forward-violating column is silenced by the flag. -/
theorem pattern_flg_suppresses_only_forward_witness :
    (strLower (Column.mk "created_at" "date").ty ∈ (["date"] : List String)) ∧
    columnCheck ["date"] [] patDT true (0, []) ⟨"created_at", "date"⟩ = (0, []) :=
  ⟨by decide,
    (pattern_flg_suppresses_only_forward ["date"] [] patDT (0, [])
      ⟨"created_at", "date"⟩).1 (by decide)⟩

/-- Claim C5: a column whose lowercased name is a member of the ignore list
contributes no violation under either direction — the loop body returns the
accumulator unchanged for every pattern, dtype list and flag. -/
theorem ignored_column_contributes_nothing (dl ig : List String)
    (p : RegularExpression Char) (flg : Bool) (acc : Nat × List Violation)
    (col : Column) (h : strLower col.name ∈ ig) :
    columnCheck dl ig p flg acc col = acc := by
  simp [columnCheck, h]

/-- Witness for C5 at a concrete ignored column. -/
theorem ignored_column_contributes_nothing_witness :
    (strLower (Column.mk "created_at" "date").name ∈ (["created_at"] : List String)) ∧
    columnCheck ["date"] ["created_at"] patDT false (0, []) ⟨"created_at", "date"⟩ =
      (0, []) :=
  ⟨by decide,
    ignored_column_contributes_nothing ["date"] ["created_at"] patDT false (0, [])
      ⟨"created_at", "date"⟩ (by decide)⟩

/-- Claim C4 counterexample: a concrete column whose lowercased name is on the
ignore list, whose type is not in the dtype list, and whose name matches the
pattern, records no `PatternWithoutType` violation — the status stays 0 and
no diagnostic is printed, contradicting "NOT exempt from the reverse check". -/
theorem ignore_list_reverse_claim_cex :
    "dt_ignored" ∈ parse_list_param "dt_ignored" ∧
    "boolean" ∉ parse_list_param "date" ∧
    re_match_icase patDT "dt_ignored" = true ∧
    check_column_name_contract ["m1.sql"] patDT "date" catIgnoredReverse false
      "dt_ignored" = Except.ok ⟨0, []⟩ := by
  refine ⟨by decide, by decide, by decide, rfl⟩

/-- Claim C4 amended: a column whose lowercased name is in `ignore_list` is
exempt from the reverse check as well: even when its type is not in
`dtype_list` and its name matches the pattern, no violation is recorded and the
status is unchanged. -/
theorem ignored_column_reverse_exempt (dl ig : List String)
    (p : RegularExpression Char) (flg : Bool) (acc : Nat × List Violation)
    (col : Column) (h1 : strLower col.name ∈ ig) (h2 : strLower col.ty ∉ dl)
    (_h3 : re_match_icase p (strLower col.name) = true) :
    columnCheck dl ig p flg acc col = acc := by
  simp [columnCheck, h1, h2]

/-- Witness for the amended C4 at the concrete ignored reverse-side column. -/
theorem ignored_column_reverse_exempt_witness :
    (strLower (Column.mk "dt_ignored" "boolean").name ∈
      parse_list_param "dt_ignored") ∧
    (strLower (Column.mk "dt_ignored" "boolean").ty ∉ parse_list_param "date") ∧
    (re_match_icase patDT (strLower (Column.mk "dt_ignored" "boolean").name) = true) ∧
    columnCheck (parse_list_param "date") (parse_list_param "dt_ignored") patDT
      false (0, []) ⟨"dt_ignored", "boolean"⟩ = (0, []) :=
  ⟨by decide, by decide, by decide,
    ignored_column_reverse_exempt (parse_list_param "date")
      (parse_list_param "dt_ignored") patDT false (0, [])
      ⟨"dt_ignored", "boolean"⟩ (by decide) (by decide) (by decide)⟩

/-- Claim C1: on any catalog whose in-scope models all carry a columns mapping,
the check returns `{"status_code": s}` with `s = 1` exactly when at least one
in-scope column triggers a forward or reverse violation and `s = 0` when none
does; the diagnostic stream is the concatenation of every in-scope column's own
violations across every in-scope model, so evaluation never stops early and
every violating column contributes its own line even after the status is 1. -/
theorem check_full_sweep_status (paths : List String)
    (pattern : RegularExpression Char) (dtype : String)
    (catalog : List (String × ModelNode)) (flg : Bool) (ignore : String)
    (h : ∀ m ∈ get_models catalog (get_filenames paths), m.2.columns ≠ none) :
    ∃ vs : List Violation,
      check_column_name_contract paths pattern dtype catalog flg ignore =
        Except.ok ⟨if vs = [] then 0 else 1, vs⟩ ∧
      vs = modelsViolations (parse_list_param dtype) (parse_list_param ignore)
          pattern flg (get_models catalog (get_filenames paths)) ∧
      ((if vs = [] then (0 : Nat) else 1) = 1 ↔
        ∃ m ∈ get_models catalog (get_filenames paths),
          ∃ col ∈ m.2.columns.getD [],
            colViolations (parse_list_param dtype) (parse_list_param ignore)
              pattern flg col ≠ []) := by
  refine ⟨_, check_eq_ok paths pattern dtype catalog flg ignore h, rfl, ?_⟩
  rw [ite_status_eq_one, Ne, modelsViolations_eq_nil_iff]
  push_neg
  rfl

/-- Witness for C1: two in-scope models, each with one violating column; the
status is 1 and both diagnostics appear. -/
theorem check_full_sweep_status_witness :
    (∀ m ∈ get_models catTwoModels
        (get_filenames ["models/m1.sql", "models/m2.sql"]), m.2.columns ≠ none) ∧
    (∃ vs : List Violation,
      check_column_name_contract ["models/m1.sql", "models/m2.sql"] patDT "date"
          catTwoModels false "" = Except.ok ⟨if vs = [] then 0 else 1, vs⟩ ∧
      vs = modelsViolations (parse_list_param "date") (parse_list_param "")
          patDT false (get_models catTwoModels
            (get_filenames ["models/m1.sql", "models/m2.sql"])) ∧
      ((if vs = [] then (0 : Nat) else 1) = 1 ↔
        ∃ m ∈ get_models catTwoModels
            (get_filenames ["models/m1.sql", "models/m2.sql"]),
          ∃ col ∈ m.2.columns.getD [],
            colViolations (parse_list_param "date") (parse_list_param "")
              patDT false col ≠ [])) :=
  ⟨by decide,
    check_full_sweep_status ["models/m1.sql", "models/m2.sql"] patDT "date"
      catTwoModels false "" (by decide)⟩

/-- Claim C8: with `pattern_flg = false`, over a well-formed catalog all of
whose in-scope columns carry a lowercased type in `dtype_list` — the claim's
restriction to columns with an allowed type — the returned status code is 1 iff
at least one in-scope column's name both escapes `ignore_list` and fails to
match the pattern (case-insensitively, anchored at the start): forward
violations alone characterize the failure status. -/
theorem status_forward_characterization (paths : List String)
    (pattern : RegularExpression Char) (dtype : String)
    (catalog : List (String × ModelNode)) (ignore : String)
    (h : ∀ m ∈ get_models catalog (get_filenames paths), m.2.columns ≠ none)
    (hall : ∀ m ∈ get_models catalog (get_filenames paths),
      ∀ col ∈ m.2.columns.getD [], strLower col.ty ∈ parse_list_param dtype) :
    ∃ r : CheckResult,
      check_column_name_contract paths pattern dtype catalog false ignore =
        Except.ok r ∧
      (r.status_code = 1 ↔
        ∃ m ∈ get_models catalog (get_filenames paths),
          ∃ col ∈ m.2.columns.getD [],
            strLower col.name ∉ parse_list_param ignore ∧
            re_match_icase pattern (strLower col.name) = false) := by
  refine ⟨_, check_eq_ok paths pattern dtype catalog false ignore h, ?_⟩
  dsimp only
  rw [ite_status_eq_one, Ne, modelsViolations_eq_nil_iff]
  push_neg
  constructor
  · rintro ⟨m, hm, col, hcol, hne⟩
    exact ⟨m, hm, col, hcol,
      (colViolations_forward_ne_nil _ _ _ _ (hall m hm col hcol)).mp hne⟩
  · rintro ⟨m, hm, col, hcol, hcond⟩
    exact ⟨m, hm, col, hcol,
      (colViolations_forward_ne_nil _ _ _ _ (hall m hm col hcol)).mpr hcond⟩

/-- Witness for C8: a catalog whose columns are all of type `date`, one of them
violating the naming pattern. -/
theorem status_forward_characterization_witness :
    (∀ m ∈ get_models catAllDates (get_filenames ["m1.sql"]),
      m.2.columns ≠ none) ∧
    (∀ m ∈ get_models catAllDates (get_filenames ["m1.sql"]),
      ∀ col ∈ m.2.columns.getD [], strLower col.ty ∈ parse_list_param "date") ∧
    (∃ r : CheckResult,
      check_column_name_contract ["m1.sql"] patDT "date" catAllDates false "" =
        Except.ok r ∧
      (r.status_code = 1 ↔
        ∃ m ∈ get_models catAllDates (get_filenames ["m1.sql"]),
          ∃ col ∈ m.2.columns.getD [],
            strLower col.name ∉ parse_list_param "" ∧
            re_match_icase patDT (strLower col.name) = false)) :=
  ⟨by decide, by decide,
    status_forward_characterization ["m1.sql"] patDT "date" catAllDates ""
      (by decide) (by decide)⟩

/-- Claim C9: the inspected models are exactly the catalog entries whose
identifier is among the filename stems of the caller-supplied `.sql` paths —
the intersection of catalog identifiers and path-derived identifiers — and a
catalog entry outside this intersection never contributes a violation or a
diagnostic: deleting it from the catalog leaves the whole result unchanged. -/
theorem in_scope_models_intersection (paths : List String)
    (catalog pre post : List (String × ModelNode)) (m : String × ModelNode)
    (pattern : RegularExpression Char) (dtype ignore : String) (flg : Bool) :
    (m ∈ get_models catalog (get_filenames paths) ↔
      m ∈ catalog ∧ m.1 ∈ get_filenames paths) ∧
    (m.1 ∈ get_filenames paths ↔
      ∃ q ∈ paths, ".sql".data.isSuffixOf q.data = true ∧ stemOf q = m.1) ∧
    (m.1 ∉ get_filenames paths →
      check_column_name_contract paths pattern dtype (pre ++ m :: post) flg
          ignore =
        check_column_name_contract paths pattern dtype (pre ++ post) flg
          ignore) := by
  refine ⟨?_, ?_, ?_⟩
  · simp [get_models, List.mem_filter]
  · constructor
    · intro hm
      obtain ⟨q, hq, hst⟩ := List.mem_map.mp hm
      obtain ⟨hqp, hsfx⟩ := List.mem_filter.mp hq
      exact ⟨q, hqp, hsfx, hst⟩
    · rintro ⟨q, hqp, hsfx, hst⟩
      exact List.mem_map.mpr ⟨q, List.mem_filter.mpr ⟨hqp, hsfx⟩, hst⟩
  · intro hnot
    have hmodels : get_models (pre ++ m :: post) (get_filenames paths) =
        get_models (pre ++ post) (get_filenames paths) := by
      simp [get_models, List.filter_append, List.filter_cons, hnot]
    simp only [check_column_name_contract, hmodels]

/-- Witness for C9: a model identifier with no matching path is dropped without
changing the outcome. -/
theorem in_scope_models_intersection_witness :
    (("m3", ModelNode.mk (some [])).1 ∉ get_filenames ["models/m1.sql"]) ∧
    check_column_name_contract ["models/m1.sql"] patDT "date"
        ([("m1", ⟨some [⟨"created_at", "date"⟩]⟩)] ++ ("m3", ⟨some []⟩) :: [])
        false "" =
      check_column_name_contract ["models/m1.sql"] patDT "date"
        ([("m1", ⟨some [⟨"created_at", "date"⟩]⟩)] ++ []) false "" :=
  ⟨by decide,
    (in_scope_models_intersection ["models/m1.sql"] []
      [("m1", ⟨some [⟨"created_at", "date"⟩]⟩)] [] ("m3", ⟨some []⟩) patDT
      "date" "" false).2.2 (by decide)⟩

/-- Claim C10: an in-scope model entry lacking a `"columns"` key makes the call
raise instead of being skipped: the `[]` fallback of `.get("columns", [])` is a
list on which `.values()` fails, so the apparent skip-empty-model default is
never usable and the whole check aborts with the propagated error. -/
theorem missing_columns_key_raises (paths : List String)
    (pattern : RegularExpression Char) (dtype : String)
    (catalog : List (String × ModelNode)) (flg : Bool) (ignore : String)
    (h : ∃ m ∈ get_models catalog (get_filenames paths), m.2.columns = none) :
    check_column_name_contract paths pattern dtype catalog flg ignore =
      Except.error () :=
  check_eq_error paths pattern dtype catalog flg ignore h

/-- Witness for C10 at a concrete catalog with a columns-less model entry. -/
theorem missing_columns_key_raises_witness :
    (∃ m ∈ get_models catNoColumnsKey (get_filenames ["m1.sql"]),
      m.2.columns = none) ∧
    check_column_name_contract ["m1.sql"] patDT "date" catNoColumnsKey false "" =
      Except.error () :=
  ⟨⟨("m1", ⟨none⟩), by decide, rfl⟩,
    missing_columns_key_raises ["m1.sql"] patDT "date" catNoColumnsKey false ""
      ⟨("m1", ⟨none⟩), by decide, rfl⟩⟩
